import Mathlib

/-!
# Verification of the WeAssistant context-management core

Shallow embedding of the claim-relevant parts of the repository:

* `app/core/summary.py` — the safe-cutoff compaction middleware
  (`_find_safe_cutoff`, `_is_safe_cutoff_point`,
  `_cutoff_separates_tool_pair`, `_create_summary`, `summarize_messages`);
* `app/core/state.py` — the usage-ledger merge (`add_usage`);
* `app/services/rag.py` — the TTL + capacity bounded query cache
  (`_get_cache_key`, `_get_cached_result`, `_cache_result`,
  `search_documents`).

Modelling conventions:

* Python `datetime.now()` timestamps are modelled as `Int` ticks passed
  explicitly (`now` parameters); `timedelta` TTLs are `Int` in the same
  unit.
* Python floats (similarity scores) are modelled as `ℚ`; no claim depends
  on float rounding.
* The md5 cache key is modelled by the data it hashes (hash collisions are
  not modelled; the key function is deterministic on its inputs exactly as
  in the source).
* External collaborators (the completion backend, `trim_messages`, the
  vector store, `count_tokens_approximately`, `uuid4`) are parameters of
  the embedded functions, as they are out of scope per the specification.
* Python dicts are association lists in insertion order; dict assignment
  replaces in place when the key exists and appends otherwise; `min` over
  keys returns the first key attaining the minimum, as in CPython.
-/

namespace WeAssistant

/-! ## Data model: messages (spec §3, langchain message classes) -/

/-- A tool call carried by an assistant message: `{call_id, name, args}`.
The `id` can be absent (`tc.get("id")` may return `None` in
`_extract_tool_call_ids`). -/
structure ToolCall where
  id : Option String
  name : String
  args : String
deriving DecidableEq

/-- Message payload: the four roles of spec §3
(`HumanMessage` / `SystemMessage` / `AIMessage` / `ToolMessage`). -/
inductive MsgKind where
  | human (content : String)
  | system (content : String)
  | ai (content : String) (tool_calls : List ToolCall)
  | tool (content : String) (tool_call_id : String)
deriving DecidableEq

/-- A conversation message: an optional `id` plus role payload. -/
structure Msg where
  id : Option String
  kind : MsgKind
deriving DecidableEq

instance : Inhabited Msg := ⟨⟨none, MsgKind.human ""⟩⟩

/-! ## `app/core/summary.py`: safe-cutoff locator -/

/-- `_SEARCH_RANGE_FOR_TOOL_PAIRS = 5` (summary.py line 59). -/
def _SEARCH_RANGE_FOR_TOOL_PAIRS : Nat := 5

/-- `max_tokens_before_summary = 3000` (summary.py line 61). -/
def max_tokens_before_summary : Nat := 3000

/-- `_has_tool_calls` (summary.py lines 164-170): an `AIMessage` whose
`tool_calls` list is truthy (non-empty). -/
def _has_tool_calls (message : Msg) : Bool :=
  match message.kind with
  | MsgKind.ai _ tool_calls => !tool_calls.isEmpty
  | _ => false

/-- `_extract_tool_call_ids` (summary.py lines 173-180): the set of
non-`None` call ids of an assistant message; membership is all that is
ever used of the Python `set`, so a list suffices. -/
def _extract_tool_call_ids (message : Msg) : List String :=
  match message.kind with
  | MsgKind.ai _ tool_calls => tool_calls.filterMap ToolCall.id
  | _ => []

/-- The `tool_call_id` of a `ToolMessage`, `none` for other roles
(models the `isinstance(message, ToolMessage)` test). -/
def toolCallIdOf (message : Msg) : Option String :=
  match message.kind with
  | MsgKind.tool _ tool_call_id => some tool_call_id
  | _ => none

/-- `_cutoff_separates_tool_pair` (summary.py lines 183-197): scan
`j ∈ [ai_message_index+1, len)` for a `ToolMessage` whose id is among
`tool_call_ids` and that sits on the opposite side of `cutoff_index` from
the assistant message. -/
def _cutoff_separates_tool_pair (messages : List Msg)
    (ai_message_index cutoff_index : Nat) (tool_call_ids : List String) :
    Bool :=
  (List.range' (ai_message_index + 1)
      (messages.length - (ai_message_index + 1))).any fun j =>
    match toolCallIdOf (messages.getD j default) with
    | some tid =>
        decide (tid ∈ tool_call_ids) &&
          (decide (ai_message_index < cutoff_index) !=
            decide (j < cutoff_index))
    | none => false

/-- `_is_safe_cutoff_point` (summary.py lines 145-161): look only at a
window of `_SEARCH_RANGE_FOR_TOOL_PAIRS` positions each side of the
candidate for assistant messages with tool calls, and require that none
of their pairs is separated.  (`search_start = max(0, i - 5)` is Nat
truncated subtraction.) -/
def _is_safe_cutoff_point (messages : List Msg) (cutoff_index : Nat) :
    Bool :=
  if messages.length ≤ cutoff_index then true
  else
    let search_start := cutoff_index - _SEARCH_RANGE_FOR_TOOL_PAIRS
    let search_end :=
      min messages.length (cutoff_index + _SEARCH_RANGE_FOR_TOOL_PAIRS)
    (List.range' search_start (search_end - search_start)).all fun i =>
      if _has_tool_calls (messages.getD i default) then
        !(_cutoff_separates_tool_pair messages i cutoff_index
            (_extract_tool_call_ids (messages.getD i default)))
      else true

/-- The backward search loop of `_find_safe_cutoff` (summary.py lines
138-142): `for i in range(target_cutoff, -1, -1)`, returning the first
safe index, and 0 when the loop falls through.  At `i = 0` both branches
yield 0, exactly as in the source. -/
def _find_safe_cutoff_loop (messages : List Msg) : Nat → Nat
  | 0 => if _is_safe_cutoff_point messages 0 then 0 else 0
  | i + 1 =>
      if _is_safe_cutoff_point messages (i + 1) then i + 1
      else _find_safe_cutoff_loop messages i

/-- `_find_safe_cutoff` (summary.py lines 127-142).  The module-level
`messages_to_keep = SETTINGS.summary_max_message_count` is configuration
whose value is not fixed in the source tree, so it is an explicit
parameter here (the spec's `keep_floor`). -/
def _find_safe_cutoff (messages : List Msg) (messages_to_keep : Nat) :
    Nat :=
  if messages.length ≤ messages_to_keep then 0
  else _find_safe_cutoff_loop messages (messages.length - messages_to_keep)

/-! ## Concrete messages for instance checks -/

/-- An assistant message carrying one tool call per given id. -/
def exAssistant (ids : List String) : Msg :=
  ⟨none, MsgKind.ai "calling tools" (ids.map fun i => ⟨some i, "lookup", ""⟩)⟩

/-- A plain user message. -/
def exHuman : Msg := ⟨none, MsgKind.human "hello"⟩

/-- A tool-result message referencing call id `i`. -/
def exToolResult (i : String) : Msg := ⟨none, MsgKind.tool "result" i⟩

/-- A log whose tool pair spans more than the look-around radius:
assistant with call `c1` at index 0, nine user messages, and the tool
result at index 10. -/
def pairGapMsgs : List Msg :=
  exAssistant ["c1"] :: (List.replicate 9 exHuman ++ [exToolResult "c1"])

/-- A log whose tool pair is within the look-around radius: assistant
with call `c1` at index 0, one user message, the tool result at index 2. -/
def pairTightMsgs : List Msg :=
  [exAssistant ["c1"], exHuman, exToolResult "c1"]

/-! ## Lemmas about the safe-cutoff locator -/

/-- A message with a non-`None` extracted call id is an assistant message
with a non-empty `tool_calls` list. -/
theorem _has_tool_calls_of_mem_extract {m : Msg} {x : String}
    (hx : x ∈ _extract_tool_call_ids m) : _has_tool_calls m = true := by
  unfold _extract_tool_call_ids at hx
  unfold _has_tool_calls
  cases h : m.kind with
  | ai c tool_calls =>
      rw [h] at hx
      cases tool_calls with
      | nil => simp at hx
      | cons a l => simp
  | human c => rw [h] at hx; simp at hx
  | system c => rw [h] at hx; simp at hx
  | tool c i => rw [h] at hx; simp at hx

/-- Every value of the backward search loop is 0 or a safe cutoff point. -/
theorem _find_safe_cutoff_loop_spec (messages : List Msg) (n : Nat) :
    _find_safe_cutoff_loop messages n = 0 ∨
    _is_safe_cutoff_point messages (_find_safe_cutoff_loop messages n) =
      true := by
  induction n with
  | zero => left; simp [_find_safe_cutoff_loop]
  | succ n ih =>
      by_cases h : _is_safe_cutoff_point messages (n + 1) = true
      · right; simp [_find_safe_cutoff_loop, h]
      · simpa [_find_safe_cutoff_loop, h] using ih

/-- Every value of `_find_safe_cutoff` is 0 or a safe cutoff point. -/
theorem _find_safe_cutoff_spec (messages : List Msg)
    (messages_to_keep : Nat) :
    _find_safe_cutoff messages messages_to_keep = 0 ∨
    _is_safe_cutoff_point messages
      (_find_safe_cutoff messages messages_to_keep) = true := by
  unfold _find_safe_cutoff
  split
  · exact Or.inl rfl
  · exact _find_safe_cutoff_loop_spec messages _

/-! ## Claims C1 and C9: the safe-cutoff locator -/

/-- C1 (counterexample): the claim "for every message sequence …
`_find_safe_cutoff` never returns a cutoff index strictly between the
assistant message's index and the last of its tool_result indices" is
false.  In `pairGapMsgs` the assistant message at index 0 emits call
`c1`, its tool result sits at index 10, and with `messages_to_keep = 3`
the function returns 8, which is strictly between 0 and 10: the bounded
`_SEARCH_RANGE_FOR_TOOL_PAIRS` window around the candidate never looks
at the assistant message. -/
theorem C1_counterexample :
    _extract_tool_call_ids (pairGapMsgs.getD 0 default) = ["c1"] ∧
    toolCallIdOf (pairGapMsgs.getD 10 default) = some "c1" ∧
    _find_safe_cutoff pairGapMsgs 3 = 8 ∧
    0 < 8 ∧ (8 : Nat) ≤ 10 := by decide

/-- C1 (amended): pairing safety holds within the look-around radius.
If the assistant message at index `p` emits call id `x`, the tool result
at index `j > p` references `x`, then `_find_safe_cutoff` never returns a
cutoff `c` with `p < c ≤ j` and `c ≤ p + _SEARCH_RANGE_FOR_TOOL_PAIRS`;
pairs spanning more than the radius may still be separated. -/
theorem C1_cutoff_respects_pairs_within_radius
    (messages : List Msg) (keep p j : Nat) (x : String)
    (hp : p < messages.length) (hj : j < messages.length)
    (hx : x ∈ _extract_tool_call_ids (messages.getD p default))
    (htool : toolCallIdOf (messages.getD j default) = some x)
    (hpj : p < j) :
    ¬(p < _find_safe_cutoff messages keep ∧
      _find_safe_cutoff messages keep ≤ j ∧
      _find_safe_cutoff messages keep ≤
        p + _SEARCH_RANGE_FOR_TOOL_PAIRS) := by
  rintro ⟨hpc, hcj, hcr⟩
  rcases _find_safe_cutoff_spec messages keep with h0 | hsafe
  · omega
  · set c := _find_safe_cutoff messages keep with hc
    have hlen : c < messages.length := lt_of_le_of_lt hcj hj
    have hsep : _cutoff_separates_tool_pair messages p c
        (_extract_tool_call_ids (messages.getD p default)) = true := by
      unfold _cutoff_separates_tool_pair
      rw [List.any_eq_true]
      refine ⟨j, List.mem_range'_1.mpr ⟨by omega, by omega⟩, ?_⟩
      rw [htool]
      have h1 : decide (p < c) = true := by simp [hpc]
      have h2 : decide (j < c) = false := by simp; omega
      show (decide (x ∈ _extract_tool_call_ids (messages.getD p default)) &&
        (decide (p < c) != decide (j < c))) = true
      rw [h1, h2, decide_eq_true hx]
      rfl
    have hradius : _SEARCH_RANGE_FOR_TOOL_PAIRS = 5 := rfl
    rw [hradius] at hcr
    unfold _is_safe_cutoff_point at hsafe
    rw [if_neg (by omega)] at hsafe
    simp only [List.all_eq_true, _SEARCH_RANGE_FOR_TOOL_PAIRS] at hsafe
    have hbody := hsafe p (List.mem_range'_1.mpr ⟨by omega, by omega⟩)
    rw [if_pos (_has_tool_calls_of_mem_extract hx)] at hbody
    rw [hsep] at hbody
    simp at hbody

/-- C1 (witness): the amended theorem applied to `pairTightMsgs` with
`keep = 1`, `p = 0`, `j = 2`, `x = "c1"`. -/
theorem C1_witness :
    ("c1" ∈ _extract_tool_call_ids (pairTightMsgs.getD 0 default)) ∧
    toolCallIdOf (pairTightMsgs.getD 2 default) = some "c1" ∧
    ¬(0 < _find_safe_cutoff pairTightMsgs 1 ∧
      _find_safe_cutoff pairTightMsgs 1 ≤ 2 ∧
      _find_safe_cutoff pairTightMsgs 1 ≤
        0 + _SEARCH_RANGE_FOR_TOOL_PAIRS) :=
  ⟨by decide, by decide,
    C1_cutoff_respects_pairs_within_radius pairTightMsgs 1 0 2 "c1"
      (by decide) (by decide) (by decide) (by decide) (by decide)⟩

/-- C9: whenever the log has at most `messages_to_keep` messages,
`_find_safe_cutoff` returns 0 (summary.py lines 133-134). -/
theorem C9_no_op_below_floor (messages : List Msg)
    (messages_to_keep : Nat)
    (h : messages.length ≤ messages_to_keep) :
    _find_safe_cutoff messages messages_to_keep = 0 := by
  unfold _find_safe_cutoff
  rw [if_pos h]

/-- C9 (witness): a two-message log with a keep floor of 5. -/
theorem C9_no_op_below_floor_witness :
    ([exHuman, exHuman] : List Msg).length ≤ 5 ∧
    _find_safe_cutoff [exHuman, exHuman] 5 = 0 :=
  ⟨by decide, C9_no_op_below_floor [exHuman, exHuman] 5 (by decide)⟩

/-! ## `app/core/state.py`: the usage ledger (`add_usage`)

`CustomUsageMetadata` extends langchain's `UsageMetadata` TypedDict:
required `input_tokens`, `output_tokens`, `total_tokens`, optional
`input_token_details` / `output_token_details` (nested per-kind counts),
plus the class's own `timestamp`.  The dict may lack the `timestamp` key
(`left.get("timestamp", -1)`), modelled as `Option Int`. -/

/-- The usage-record dict.  Nested detail dicts are association lists in
insertion order. -/
structure CustomUsageMetadata where
  input_tokens : Int
  output_tokens : Int
  total_tokens : Int
  input_token_details : Option (List (String × Int))
  output_token_details : Option (List (String × Int))
  timestamp : Option Int
deriving DecidableEq

/-- Key list of the union of two dicts: left keys in order, then keys
only in the right (one canonical order for Python's unordered
`set(left).union(right)`; all claims read the result through key
lookups, which are order-independent). -/
def unionKeys (l r : List (String × Int)) : List String :=
  l.map Prod.fst ++
    (r.map Prod.fst).filter fun k => decide (k ∉ l.map Prod.fst)

/-- `d.get(k, 0)`: first value under key `k`, default 0. -/
def lookup0 (d : List (String × Int)) (k : String) : Int :=
  ((d.find? fun p => decide (p.1 = k)).map Prod.snd).getD 0

/-- One level of `_dict_int_op(left, right, operator.add)`
(langchain_core.utils.usage) on a nested int dict: for every key of the
union, add the two values, a missing side contributing the default 0 —
so keys present in only one side pass through unchanged. -/
def mergeCounts (l r : List (String × Int)) : List (String × Int) :=
  (unionKeys l r).map fun k => (k, lookup0 l k + lookup0 r k)

/-- `_dict_int_op` on an optional nested dict field: a key missing from
both dicts is missing from the union; a side missing the key enters the
recursion as `{}` (`left.get(k, {})`). -/
def detailAdd :
    Option (List (String × Int)) → Option (List (String × Int)) →
    Option (List (String × Int))
  | none, none => none
  | some l, none => some (mergeCounts l [])
  | none, some r => some (mergeCounts [] r)
  | some l, some r => some (mergeCounts l r)

/-- `_dict_int_op(left, right, operator.add)` over the fixed field set of
`CustomUsageMetadata`: every int field is added with default 0 for a
missing side, nested detail dicts are merged recursively, and the
`timestamp` key (an int field) is likewise added when present in either
dict — `add_usage` immediately overwrites it. -/
def dictIntAdd (l r : CustomUsageMetadata) : CustomUsageMetadata where
  input_tokens := l.input_tokens + r.input_tokens
  output_tokens := l.output_tokens + r.output_tokens
  total_tokens := l.total_tokens + r.total_tokens
  input_token_details := detailAdd l.input_token_details r.input_token_details
  output_token_details :=
    detailAdd l.output_token_details r.output_token_details
  timestamp :=
    match l.timestamp, r.timestamp with
    | none, none => none
    | lt, rt => some (lt.getD 0 + rt.getD 0)

/-- `add_usage` (state.py lines 27-61).  `datetime.now().timestamp()` is
the explicit parameter `now`.  A present record is modelled as truthy:
every record the code constructs carries the three required token
fields, so it is a non-empty dict. -/
def add_usage (left right : Option CustomUsageMetadata) (now : Int) :
    CustomUsageMetadata :=
  match left, right with
  | none, none =>
      { input_tokens := 0, output_tokens := 0, total_tokens := 0,
        input_token_details := none, output_token_details := none,
        timestamp := some now }
  | some l, none => l
  | none, some r => r
  | some l, some r =>
      let left_ts := l.timestamp.getD (-1)
      let right_ts := r.timestamp.getD (-1)
      if left_ts ≠ -1 ∧ right_ts ≠ -1 then
        if left_ts ≥ right_ts then l else r
      else
        let merged := dictIntAdd l r
        { merged with timestamp := some now }

/-! ## Claims C3, C4 and C6: the usage ledger -/

/-- C3: merging a stamped usage record with itself returns it unchanged
(the both-timestamps-valid branch returns `left`), so no numeric field
is doubled. -/
theorem C3_idempotent_duplicate_usage (U : CustomUsageMetadata)
    (t now : Int) (hset : U.timestamp = some t) (hvalid : t ≠ -1) :
    add_usage (some U) (some U) now = U := by
  simp only [add_usage, hset, Option.getD_some]
  rw [if_pos ⟨hvalid, hvalid⟩, if_pos le_rfl]

/-- C3 (witness): a concrete stamped record. -/
theorem C3_idempotent_duplicate_usage_witness :
    ({ input_tokens := 10, output_tokens := 5, total_tokens := 15,
       input_token_details := some [("cache_read", 2)],
       output_token_details := none,
       timestamp := some 42 } : CustomUsageMetadata).timestamp = some 42 ∧
    (42 : Int) ≠ -1 ∧
    add_usage
      (some { input_tokens := 10, output_tokens := 5, total_tokens := 15,
              input_token_details := some [("cache_read", 2)],
              output_token_details := none, timestamp := some 42 })
      (some { input_tokens := 10, output_tokens := 5, total_tokens := 15,
              input_token_details := some [("cache_read", 2)],
              output_token_details := none, timestamp := some 42 }) 7 =
      { input_tokens := 10, output_tokens := 5, total_tokens := 15,
        input_token_details := some [("cache_read", 2)],
        output_token_details := none, timestamp := some 42 } :=
  ⟨rfl, by decide,
    C3_idempotent_duplicate_usage _ 42 7 rfl (by decide)⟩

/-- C4 (counterexample): the claim says a lone unstamped record is
returned "after being stamped with the current time", but `add_usage`
returns `left or right` without stamping: an unstamped record stays
unstamped (`timestamp` is still absent, not `now = 5`). -/
theorem C4_counterexample :
    ({ input_tokens := 1, output_tokens := 0, total_tokens := 1,
       input_token_details := none, output_token_details := none,
       timestamp := none } : CustomUsageMetadata).timestamp = none ∧
    (add_usage
        (some { input_tokens := 1, output_tokens := 0, total_tokens := 1,
                input_token_details := none, output_token_details := none,
                timestamp := none }) none 5).timestamp = none := by
  exact ⟨rfl, rfl⟩

/-- C4 (amended): whenever exactly one of the two arguments is present,
`add_usage` returns that record completely unchanged — in particular it
is *not* stamped with the current time when it lacks a timestamp. -/
theorem C4_single_operand_returned_unchanged (U : CustomUsageMetadata)
    (now : Int) :
    add_usage (some U) none now = U ∧ add_usage none (some U) now = U :=
  ⟨rfl, rfl⟩

/-- The value under key `k` in an optional nested detail dict (`none`
when the dict or the key is absent). -/
def lookupDetail :
    Option (List (String × Int)) → String → Option Int
  | none, _ => none
  | some d, k => (d.find? fun p => decide (p.1 = k)).map Prod.snd

/-- The specification's per-key combination: values present on both
sides are added, keys present in only one side pass through unchanged. -/
def specCombine : Option Int → Option Int → Option Int
  | some a, some b => some (a + b)
  | some a, none => some a
  | none, some b => some b
  | none, none => none

/-! ### Lemmas about nested-detail merging -/

theorem find?_map_keys (keys : List String) (f : String → Int)
    (k : String) :
    ((keys.map fun j => (j, f j)).find? fun p => decide (p.1 = k)) =
      if k ∈ keys then some (k, f k) else none := by
  induction keys with
  | nil => simp
  | cons a l ih =>
      by_cases h : a = k
      · subst h; simp [List.find?]
      · simp only [List.map_cons, List.find?]
        rw [decide_eq_false h]
        rw [ih]
        by_cases hk : k ∈ l
        · rw [if_pos hk, if_pos (List.mem_cons_of_mem a hk)]
        · rw [if_neg hk,
            if_neg (by simp [List.mem_cons, Ne.symm h, hk])]

theorem find?_key_eq_none_iff (d : List (String × Int)) (k : String) :
    (d.find? fun p => decide (p.1 = k)) = none ↔
      k ∉ d.map Prod.fst := by
  rw [List.find?_eq_none]
  simp only [decide_eq_true_eq, List.mem_map, not_exists, not_and,
    Prod.forall]

theorem find?_key_eq_some (d : List (String × Int)) (k : String)
    (p : String × Int)
    (h : d.find? (fun q => decide (q.1 = k)) = some p) :
    p.1 = k ∧ k ∈ d.map Prod.fst := by
  have h1 := List.find?_some h
  have h2 := List.mem_of_find?_eq_some h
  simp at h1
  exact ⟨h1, by rw [← h1]; exact List.mem_map_of_mem Prod.fst h2⟩

theorem mem_unionKeys (l r : List (String × Int)) (k : String) :
    k ∈ unionKeys l r ↔
      k ∈ l.map Prod.fst ∨ k ∈ r.map Prod.fst := by
  unfold unionKeys
  simp [List.mem_append, List.mem_filter]
  tauto

/-- Reading any key of a `_dict_int_op` merge of nested detail dicts
gives exactly the spec's per-key combination. -/
theorem lookupDetail_detailAdd (dl dr : Option (List (String × Int)))
    (k : String) :
    lookupDetail (detailAdd dl dr) k =
      specCombine (lookupDetail dl k) (lookupDetail dr k) := by
  have core : ∀ l r : List (String × Int),
      lookupDetail (some (mergeCounts l r)) k =
        specCombine (lookupDetail (some l) k)
          (lookupDetail (some r) k) := by
    intro l r
    show ((mergeCounts l r).find? fun p => decide (p.1 = k)).map
        Prod.snd = _
    unfold mergeCounts
    rw [find?_map_keys (unionKeys l r)
      (fun j => lookup0 l j + lookup0 r j) k]
    by_cases hk : k ∈ unionKeys l r
    · rw [if_pos hk]
      show some (lookup0 l k + lookup0 r k) = _
      rcases hfl : l.find? fun p => decide (p.1 = k) with _ | pl
      · rcases hfr : r.find? fun p => decide (p.1 = k) with _ | pr
        · exact absurd ((mem_unionKeys l r k).mp hk)
            (by
              rw [find?_key_eq_none_iff] at hfl hfr
              tauto)
        · show _ = specCombine
            ((l.find? fun p => decide (p.1 = k)).map Prod.snd)
            ((r.find? fun p => decide (p.1 = k)).map Prod.snd)
          rw [hfl, hfr]
          simp [lookup0, hfl, hfr, specCombine]
      · rcases hfr : r.find? fun p => decide (p.1 = k) with _ | pr
        · show _ = specCombine
            ((l.find? fun p => decide (p.1 = k)).map Prod.snd)
            ((r.find? fun p => decide (p.1 = k)).map Prod.snd)
          rw [hfl, hfr]
          simp [lookup0, hfl, hfr, specCombine]
        · show _ = specCombine
            ((l.find? fun p => decide (p.1 = k)).map Prod.snd)
            ((r.find? fun p => decide (p.1 = k)).map Prod.snd)
          rw [hfl, hfr]
          simp [lookup0, hfl, hfr, specCombine]
    · rw [if_neg hk]
      rw [mem_unionKeys] at hk
      push_neg at hk
      show none = specCombine
        ((l.find? fun p => decide (p.1 = k)).map Prod.snd)
        ((r.find? fun p => decide (p.1 = k)).map Prod.snd)
      rw [(find?_key_eq_none_iff l k).mpr hk.1,
        (find?_key_eq_none_iff r k).mpr hk.2]
      rfl
  cases dl with
  | none =>
      cases dr with
      | none => rfl
      | some r => exact core [] r
  | some l =>
      cases dr with
      | none => exact core l []
      | some r => exact core l r

/-! ### Claim C6 -/

/-- C6: when both records are present and at least one lacks a valid
timestamp, `add_usage` adds every numeric field, merges the nested
per-kind detail dicts key-wise (keys present in only one side pass
through unchanged), and stamps the result with the current time. -/
theorem C6_additive_merge_for_distinct_calls
    (l r : CustomUsageMetadata) (now : Int) (k : String)
    (h : l.timestamp.getD (-1) = -1 ∨ r.timestamp.getD (-1) = -1) :
    (add_usage (some l) (some r) now).input_tokens =
        l.input_tokens + r.input_tokens ∧
    (add_usage (some l) (some r) now).output_tokens =
        l.output_tokens + r.output_tokens ∧
    (add_usage (some l) (some r) now).total_tokens =
        l.total_tokens + r.total_tokens ∧
    (add_usage (some l) (some r) now).timestamp = some now ∧
    lookupDetail (add_usage (some l) (some r) now).input_token_details
        k =
      specCombine (lookupDetail l.input_token_details k)
        (lookupDetail r.input_token_details k) ∧
    lookupDetail (add_usage (some l) (some r) now).output_token_details
        k =
      specCombine (lookupDetail l.output_token_details k)
        (lookupDetail r.output_token_details k) := by
  have hcond : ¬(l.timestamp.getD (-1) ≠ -1 ∧
      r.timestamp.getD (-1) ≠ -1) := by tauto
  have heq : add_usage (some l) (some r) now =
      { dictIntAdd l r with timestamp := some now } := by
    simp only [add_usage]
    rw [if_neg hcond]
  rw [heq]
  exact ⟨rfl, rfl, rfl, rfl,
    lookupDetail_detailAdd l.input_token_details r.input_token_details k,
    lookupDetail_detailAdd l.output_token_details r.output_token_details
      k⟩

/-- The claim's left operand: `input=10, output=5`, unstamped. -/
def usage10 : CustomUsageMetadata :=
  { input_tokens := 10, output_tokens := 5, total_tokens := 15,
    input_token_details := none, output_token_details := none,
    timestamp := none }

/-- The claim's right operand: `input=3, output=2`, unstamped. -/
def usage3 : CustomUsageMetadata :=
  { input_tokens := 3, output_tokens := 2, total_tokens := 5,
    input_token_details := none, output_token_details := none,
    timestamp := none }

/-- C6 (witness): the claim's own example — merging `(input=10,output=5)`
with `(input=3,output=2)`, both unstamped, gives `input=13, output=7`
stamped with the current time. -/
theorem C6_additive_merge_witness :
    (usage10.timestamp.getD (-1) = -1 ∨
      usage3.timestamp.getD (-1) = -1) ∧
    ((add_usage (some usage10) (some usage3) 7).input_tokens =
        usage10.input_tokens + usage3.input_tokens ∧
      (add_usage (some usage10) (some usage3) 7).output_tokens =
        usage10.output_tokens + usage3.output_tokens ∧
      (add_usage (some usage10) (some usage3) 7).total_tokens =
        usage10.total_tokens + usage3.total_tokens ∧
      (add_usage (some usage10) (some usage3) 7).timestamp = some 7 ∧
      lookupDetail
          (add_usage (some usage10) (some usage3) 7).input_token_details
          "cache_read" =
        specCombine (lookupDetail usage10.input_token_details
            "cache_read")
          (lookupDetail usage3.input_token_details "cache_read") ∧
      lookupDetail
          (add_usage (some usage10)
            (some usage3) 7).output_token_details "cache_read" =
        specCombine (lookupDetail usage10.output_token_details
            "cache_read")
          (lookupDetail usage3.output_token_details "cache_read")) ∧
    (add_usage (some usage10) (some usage3) 7).input_tokens = 13 ∧
    (add_usage (some usage10) (some usage3) 7).output_tokens = 7 :=
  ⟨Or.inl rfl,
    C6_additive_merge_for_distinct_calls usage10 usage3 7 "cache_read"
      (Or.inl rfl),
    rfl, rfl⟩

/-! ## `app/services/rag.py`: the bounded query-result cache

`RAGService` keeps `self._query_cache`, a dict from the md5 cache key to
`{"result": List[Document], "timestamp": datetime.now()}`, with
`self._cache_ttl` a fixed `timedelta`.  The md5 hex key is modelled by
the data that is hashed — the pair of the query string and the
(canonically serialized) filter — which keeps the key function
deterministic exactly as in the source while not modelling hash
collisions.  The dict is an association list in insertion order. -/

/-- Metadata values are strings or numbers (floats modelled as `ℚ`). -/
inductive MetaVal where
  | str (s : String)
  | num (q : ℚ)
deriving DecidableEq

/-- A retrieved document: `page_content` plus a metadata dict. -/
structure Document where
  page_content : String
  metadata : List (String × MetaVal)
deriving DecidableEq

/-- What `json.dumps({"query": …, "filter": …}, sort_keys=True)` feeds
into md5: the query and the filter dict (`metadata_filter or {}` turns
an absent filter into the empty dict; `sort_keys` canonicalizes key
order, a no-op for the at-most-singleton filters the service builds). -/
structure CacheKey where
  query : String
  filter : List (String × String)
deriving DecidableEq

/-- A cache slot: `{"result": …, "timestamp": …}`. -/
structure CacheEntry where
  result : List Document
  timestamp : Int
deriving DecidableEq

/-- `self._query_cache`. -/
abbrev QueryCache : Type := List (CacheKey × CacheEntry)

/-- `RAGService._get_cache_key` (rag.py lines 53-56). -/
def _get_cache_key (query : String)
    (metadata_filter : Option (List (String × String))) : CacheKey :=
  { query := query, filter := metadata_filter.getD [] }

/-- Python dict assignment `d[k] = v`: replace in place when the key
exists, append otherwise. -/
def dictInsert (cache : QueryCache) (k : CacheKey) (v : CacheEntry) :
    QueryCache :=
  if cache.any fun kv => decide (kv.1 = k) then
    cache.map fun kv => if kv.1 = k then (k, v) else kv
  else cache ++ [(k, v)]

/-- `min(cache.keys(), key=lambda k: cache[k]["timestamp"])`: the first
key attaining the minimal timestamp (CPython `min` keeps the earlier of
equal candidates). -/
def _min_by_timestamp (cache : QueryCache) :
    Option (CacheKey × CacheEntry) :=
  cache.foldl
    (fun best kv =>
      match best with
      | none => some kv
      | some b => if kv.2.timestamp < b.2.timestamp then some kv
          else some b)
    none

/-- `RAGService._get_cached_result` (rag.py lines 58-66): a fresh hit
returns the stored list; an expired entry is deleted and the read is a
miss.  The possibly mutated dict is returned alongside. -/
def _get_cached_result (cache : QueryCache) (cache_key : CacheKey)
    (now ttl : Int) : Option (List Document) × QueryCache :=
  match cache.find? fun kv => decide (kv.1 = cache_key) with
  | none => (none, cache)
  | some (_, entry) =>
      if now - entry.timestamp < ttl then (some entry.result, cache)
      else (none, cache.filter fun kv => decide (kv.1 ≠ cache_key))

/-- `RAGService._cache_result` (rag.py lines 68-77): evict the entry
with the smallest timestamp when the dict already holds more than 100
entries, then store under `cache_key`. -/
def _cache_result (cache : QueryCache) (cache_key : CacheKey)
    (result : List Document) (now : Int) : QueryCache :=
  let cache1 :=
    if 100 < cache.length then
      match _min_by_timestamp cache with
      | some oldest => cache.filter fun kv => decide (kv.1 ≠ oldest.1)
      | none => cache
    else cache
  dictInsert cache1 cache_key { result := result, timestamp := now }

/-- A formatted search result `{"content": …, "metadata": …, "score":
doc.metadata.get("relevance_score", 0.8)}`. -/
structure FormattedResult where
  content : String
  metadata : List (String × MetaVal)
  score : MetaVal
deriving DecidableEq

/-- The per-document formatting of `search_documents`. -/
def formatDoc (doc : Document) : FormattedResult :=
  { content := doc.page_content, metadata := doc.metadata,
    score :=
      ((doc.metadata.find? fun p =>
          decide (p.1 = "relevance_score")).map Prod.snd).getD
        (MetaVal.num (4 / 5)) }

/-- Outcome of one `search_documents` call: the formatted results, the
query cache afterwards, and whether the underlying retrieval
(`get_relevant_documents`, the vector-store call) was invoked. -/
structure SearchOutcome where
  results : List FormattedResult
  cache : QueryCache
  invoked : Bool
deriving DecidableEq

/-- The `metadata_filter` local of `search_documents`:
`{"user_id": str(user_id)} if user_id else None` — `if user_id` is
Python truthiness, so `user_id = 0` behaves like `None`. -/
def searchFilter (user_id : Option Int) :
    Option (List (String × String)) :=
  match user_id with
  | some uid => if uid ≠ 0 then some [("user_id", toString uid)]
      else none
  | none => none

/-- `RAGService.search_documents` (rag.py lines 198-255).  The awaited
`get_relevant_documents` — the expensive vector-store retrieval — is the
parameter `retrieve` (its arguments in source order: query, `k` =
`limit`, `metadata_filter`, `relevance_threshold` = `min_score`).  Note
`if cached_result:` is Python truthiness, so a cached *empty* list falls
through to a fresh retrieval. -/
def search_documents
    (retrieve : String → Nat → Option (List (String × String)) → ℚ →
      List Document)
    (cache : QueryCache) (now ttl : Int)
    (query : String) (user_id : Option Int) (limit : Nat)
    (min_score : ℚ) : SearchOutcome :=
  let metadata_filter := searchFilter user_id
  let cache_key := _get_cache_key query metadata_filter
  match _get_cached_result cache cache_key now ttl with
  | (some cached_result, cache') =>
      if cached_result.isEmpty then
        let documents := retrieve query limit metadata_filter min_score
        { results := documents.map formatDoc,
          cache := _cache_result cache' cache_key documents now,
          invoked := true }
      else
        { results := (cached_result.take limit).map formatDoc,
          cache := cache', invoked := false }
  | (none, cache') =>
      let documents := retrieve query limit metadata_filter min_score
      { results := documents.map formatDoc,
        cache := _cache_result cache' cache_key documents now,
        invoked := true }

/-! ### Cache lemmas -/

theorem find?_replace (cache : QueryCache) (k : CacheKey)
    (v : CacheEntry)
    (h : cache.any (fun kv => decide (kv.1 = k)) = true) :
    ((cache.map fun kv => if kv.1 = k then (k, v) else kv).find?
      fun kv => decide (kv.1 = k)) = some (k, v) := by
  induction cache with
  | nil => simp at h
  | cons a l ih =>
      by_cases hk : a.1 = k
      · simp only [List.map_cons, if_pos hk]
        exact List.find?_cons_of_pos _ (by simp)
      · have h' : l.any (fun kv => decide (kv.1 = k)) = true := by
          simp only [List.any_cons, Bool.or_eq_true] at h
          rcases h with h | h
          · exact absurd (of_decide_eq_true h) hk
          · exact h
        simp only [List.map_cons, if_neg hk]
        rw [List.find?_cons_of_neg _ (by simp [hk])]
        exact ih h'

/-- After a dict store, looking the key up finds exactly the stored
value. -/
theorem find?_dictInsert (cache : QueryCache) (k : CacheKey)
    (v : CacheEntry) :
    ((dictInsert cache k v).find? fun kv => decide (kv.1 = k)) =
      some (k, v) := by
  unfold dictInsert
  by_cases h : cache.any (fun kv => decide (kv.1 = k)) = true
  · rw [if_pos h]
    exact find?_replace cache k v h
  · rw [if_neg h]
    rw [List.find?_append]
    have hnone : (cache.find? fun kv => decide (kv.1 = k)) = none := by
      rw [List.find?_eq_none]
      intro x hx hpx
      exact h (List.any_eq_true.mpr ⟨x, hx, hpx⟩)
    rw [hnone]
    simp [List.find?]

/-- After `_cache_result`, the stored key maps to the stored value:
capacity eviction removes only the oldest pre-existing key before the
insertion. -/
theorem find?_cache_result (cache : QueryCache) (k : CacheKey)
    (result : List Document) (now : Int) :
    ((_cache_result cache k result now).find? fun kv =>
      decide (kv.1 = k)) = some (k, ⟨result, now⟩) := by
  unfold _cache_result
  exact find?_dictInsert _ k _

/-- A fresh hit in `_get_cached_result`: the stored list is returned and
the cache is untouched. -/
theorem _get_cached_result_fresh (cache : QueryCache) (key : CacheKey)
    (entry : CacheEntry) (now ttl : Int)
    (hfound : (cache.find? fun kv => decide (kv.1 = key)) =
      some (key, entry))
    (hfresh : now - entry.timestamp < ttl) :
    _get_cached_result cache key now ttl = (some entry.result, cache) := by
  unfold _get_cached_result
  rw [hfound]
  show (if now - entry.timestamp < ttl then (some entry.result, cache)
    else (none, cache.filter fun kv => decide (kv.1 ≠ key))) = _
  rw [if_pos hfresh]

/-- A read of a key that is not in the cache is a miss and leaves the
cache untouched. -/
theorem _get_cached_result_absent (cache : QueryCache) (key : CacheKey)
    (now ttl : Int)
    (hnone : (cache.find? fun kv => decide (kv.1 = key)) = none) :
    _get_cached_result cache key now ttl = (none, cache) := by
  unfold _get_cached_result
  rw [hnone]

/-! ### Claims C5 and C10: cache reads in `search_documents` -/

/-- The retrieval oracle used in concrete cache scenes: one fixed
document, regardless of the arguments. -/
def exRetrieve : String → Nat → Option (List (String × String)) → ℚ →
    List Document :=
  fun _ _ _ _ => [{ page_content := "doc", metadata := [] }]

/-- A retrieval oracle that finds nothing. -/
def exRetrieveEmpty :
    String → Nat → Option (List (String × String)) → ℚ →
    List Document :=
  fun _ _ _ _ => []

/-- A cache holding an *empty* fresh result for the query `"hi there"`
(no user filter), inserted at time 0. -/
def emptyHitCache : QueryCache :=
  [(_get_cache_key "hi there" none, { result := [], timestamp := 0 })]

/-- C5 (counterexample): the claim "for every cached query entry whose
age is below the TTL, a read returns the cached value and retrieval is
not invoked again" is false when the cached value is the empty list:
`if cached_result:` treats `[]` as a miss, so at `now = 1`, `ttl = 100`
(entry age 1), `search_documents` re-invokes retrieval even though the
entry is fresh. -/
theorem C5_counterexample :
    (emptyHitCache.find? fun kv =>
      decide (kv.1 = _get_cache_key "hi there" none)) =
      some (_get_cache_key "hi there" none,
        { result := [], timestamp := 0 }) ∧
    ((1 : Int) - 0 < 100) ∧
    (search_documents exRetrieve emptyHitCache 1 100 "hi there" none 5
      (1 / 2)).invoked = true := by
  refine ⟨rfl, by decide, rfl⟩

/-- Shared: a fresh cache hit in `search_documents` whose stored list is
non-empty returns the cached documents truncated to `limit`, leaves the
cache unchanged, and does not invoke retrieval. -/
theorem search_documents_fresh_hit
    (retrieve : String → Nat → Option (List (String × String)) → ℚ →
      List Document)
    (cache : QueryCache) (now ttl : Int) (query : String)
    (user_id : Option Int) (limit : Nat) (min_score : ℚ)
    (entry : CacheEntry)
    (hfound : (cache.find? fun kv => decide (kv.1 =
        _get_cache_key query (searchFilter user_id))) =
      some (_get_cache_key query (searchFilter user_id), entry))
    (hfresh : now - entry.timestamp < ttl)
    (hnonempty : entry.result ≠ []) :
    search_documents retrieve cache now ttl query user_id limit
      min_score =
      { results := (entry.result.take limit).map formatDoc,
        cache := cache, invoked := false } := by
  simp only [search_documents]
  rw [_get_cached_result_fresh cache _ entry now ttl hfound hfresh]
  have hie : entry.result.isEmpty = false := by
    cases h : entry.result with
    | nil => exact absurd h hnonempty
    | cons a l => rfl
  simp [hie]

/-- Shared: a `search_documents` call whose key is absent from the cache
invokes retrieval and stores the result under the key. -/
theorem search_documents_miss
    (retrieve : String → Nat → Option (List (String × String)) → ℚ →
      List Document)
    (cache : QueryCache) (now ttl : Int) (query : String)
    (user_id : Option Int) (limit : Nat) (min_score : ℚ)
    (hnone : (cache.find? fun kv => decide (kv.1 =
        _get_cache_key query (searchFilter user_id))) = none) :
    search_documents retrieve cache now ttl query user_id limit
      min_score =
      { results := (retrieve query limit (searchFilter user_id)
          min_score).map formatDoc,
        cache := _cache_result cache
          (_get_cache_key query (searchFilter user_id))
          (retrieve query limit (searchFilter user_id) min_score) now,
        invoked := true } := by
  simp only [search_documents]
  rw [_get_cached_result_absent cache _ now ttl hnone]

/-- C5 (amended): a fresh cache hit whose cached value is *non-empty*
returns the cached documents (truncated to `limit`) without invoking
retrieval and leaves the cache unchanged; a fresh cached empty list is
treated as a miss and retrieval runs again. -/
theorem C5_fresh_nonempty_hit_no_recompute
    (retrieve : String → Nat → Option (List (String × String)) → ℚ →
      List Document)
    (cache : QueryCache) (now ttl : Int) (query : String)
    (user_id : Option Int) (limit : Nat) (min_score : ℚ)
    (entry : CacheEntry)
    (hfound : (cache.find? fun kv => decide (kv.1 =
        _get_cache_key query (searchFilter user_id))) =
      some (_get_cache_key query (searchFilter user_id), entry))
    (hfresh : now - entry.timestamp < ttl)
    (hnonempty : entry.result ≠ []) :
    search_documents retrieve cache now ttl query user_id limit
      min_score =
      { results := (entry.result.take limit).map formatDoc,
        cache := cache, invoked := false } :=
  search_documents_fresh_hit retrieve cache now ttl query user_id limit
    min_score entry hfound hfresh hnonempty

/-- The one-document cache used by the C5 witness. -/
def freshHitCache : QueryCache :=
  [(_get_cache_key "hi there" none,
    { result := [⟨"doc", []⟩], timestamp := 0 })]

/-- C5 (witness): a fresh non-empty hit at age 1 under TTL 100. -/
theorem C5_witness :
    ((freshHitCache.find? fun kv =>
      decide (kv.1 = _get_cache_key "hi there"
        (searchFilter none))) =
      some (_get_cache_key "hi there" (searchFilter none),
        { result := [⟨"doc", []⟩], timestamp := 0 })) ∧
    ((1 : Int) - ({ result := [⟨"doc", []⟩], timestamp := 0 } :
      CacheEntry).timestamp < 100) ∧
    (([⟨"doc", []⟩] : List Document) ≠ []) ∧
    search_documents exRetrieve freshHitCache 1 100
      "hi there" none 2 (1 / 2) =
      { results := (([⟨"doc", []⟩] : List Document).take 2).map
          formatDoc,
        cache := freshHitCache, invoked := false } :=
  ⟨rfl, by decide, by decide,
    C5_fresh_nonempty_hit_no_recompute exRetrieve freshHitCache 1 100
      "hi there" none 2 (1 / 2)
      { result := [⟨"doc", []⟩], timestamp := 0 }
      rfl (by decide) (by decide)⟩

/-- C10 (counterexample): the claim "a fresh cache entry stored by the
first call is hit by the second call, which returns without rerunning
retrieval" fails when the first call retrieved *no* documents: the first
call stores `[]` under the key, and the second call — differing only in
`limit` and `min_score`, well within the TTL — invokes retrieval
again. -/
theorem C10_counterexample :
    (search_documents exRetrieveEmpty [] 0 100 "hi there" none 5
      (1 / 2)).invoked = true ∧
    ((search_documents exRetrieveEmpty [] 0 100 "hi there" none 5
      (1 / 2)).cache.find? fun kv =>
      decide (kv.1 = _get_cache_key "hi there" none)) =
      some (_get_cache_key "hi there" none,
        { result := [], timestamp := 0 }) ∧
    (search_documents exRetrieveEmpty
      (search_documents exRetrieveEmpty [] 0 100 "hi there" none 5
        (1 / 2)).cache 1 100 "hi there" none 3 (3 / 4)).invoked =
      true :=
  ⟨rfl, rfl, rfl⟩

/-- C10 (amended): the cache key ignores `limit` and `min_score` — it is
built from the query and the user filter alone — so when a first call
misses and stores a *non-empty* document list, a second call within the
TTL that differs only in `limit` and/or `min_score` hits that entry and
returns the first call's documents truncated to the new `limit`, without
invoking retrieval under the new `min_score`. -/
theorem C10_key_ignores_result_shaping
    (retrieve : String → Nat → Option (List (String × String)) → ℚ →
      List Document)
    (cache : QueryCache) (now₁ now₂ ttl : Int) (query : String)
    (user_id : Option Int) (limit₁ limit₂ : Nat) (min₁ min₂ : ℚ)
    (hmiss : (cache.find? fun kv => decide (kv.1 =
        _get_cache_key query (searchFilter user_id))) = none)
    (hdocs : retrieve query limit₁ (searchFilter user_id) min₁ ≠ [])
    (hfresh : now₂ - now₁ < ttl) :
    (search_documents retrieve cache now₁ ttl query user_id limit₁
      min₁).invoked = true ∧
    search_documents retrieve
        (search_documents retrieve cache now₁ ttl query user_id limit₁
          min₁).cache now₂ ttl query user_id limit₂ min₂ =
      { results := ((retrieve query limit₁ (searchFilter user_id)
          min₁).take limit₂).map formatDoc,
        cache := (search_documents retrieve cache now₁ ttl query
          user_id limit₁ min₁).cache,
        invoked := false } := by
  have h1 := search_documents_miss retrieve cache now₁ ttl query
    user_id limit₁ min₁ hmiss
  refine ⟨by rw [h1], ?_⟩
  rw [h1]
  exact search_documents_fresh_hit retrieve _ now₂ ttl query user_id
    limit₂ min₂
    { result := retrieve query limit₁ (searchFilter user_id) min₁,
      timestamp := now₁ }
    (find?_cache_result cache _ _ now₁) hfresh hdocs

/-- C10 (witness): two calls on an empty cache differing only in
`limit` (5 vs 1) and `min_score` (1/2 vs 3/4). -/
theorem C10_witness :
    ((([] : QueryCache).find? fun kv => decide (kv.1 =
      _get_cache_key "hi there" (searchFilter none))) = none) ∧
    (exRetrieve "hi there" 5 (searchFilter none) (1 / 2) ≠ []) ∧
    ((1 : Int) - 0 < 100) ∧
    ((search_documents exRetrieve [] 0 100 "hi there" none 5
      (1 / 2)).invoked = true ∧
    search_documents exRetrieve
        (search_documents exRetrieve [] 0 100 "hi there" none 5
          (1 / 2)).cache 1 100 "hi there" none 1 (3 / 4) =
      { results := ((exRetrieve "hi there" 5 (searchFilter none)
          (1 / 2)).take 1).map formatDoc,
        cache := (search_documents exRetrieve [] 0 100 "hi there" none
          5 (1 / 2)).cache,
        invoked := false }) :=
  ⟨rfl, by decide, by decide,
    C10_key_ignores_result_shaping exRetrieve [] 0 1 100 "hi there"
      none 5 1 (1 / 2) (3 / 4) rfl (by decide) (by decide)⟩

/-! ### Claim C2: capacity eviction -/

/-- Repeated `_cache_result` stores, in order. -/
def insertAll (cache : QueryCache)
    (entries : List (CacheKey × List Document × Int)) : QueryCache :=
  entries.foldl (fun c e => _cache_result c e.1 e.2.1 e.2.2) cache

/-- The cache slot an insert produces. -/
def toSlot (e : CacheKey × List Document × Int) :
    CacheKey × CacheEntry :=
  (e.1, { result := e.2.1, timestamp := e.2.2 })

/-- A fixed document used by the cache-capacity scenes. -/
def docA : Document := ⟨"doc", []⟩

/-- The first inserted entry of the capacity scenes: key `k0`,
inserted at time 0. -/
def c2head : CacheKey × List Document × Int :=
  ({ query := "k0", filter := [] }, [docA], 0)

/-- 101 further distinct entries `k1 … k101` with increasing insertion
timestamps 1 … 101. -/
def c2tail : List (CacheKey × List Document × Int) :=
  (List.range 101).map fun i =>
    ({ query := "k" ++ toString (i + 1), filter := [] }, [docA],
      ((i : Int) + 1))

/-- As long as the dict holds at most 100 entries before each store and
all keys are fresh, `_cache_result` never evicts: the inserts append in
order. -/
theorem insertAll_no_evict
    (entries : List (CacheKey × List Document × Int))
    (cache : QueryCache)
    (hlen : cache.length + entries.length ≤ 101)
    (hnodup : (cache.map Prod.fst ++ entries.map Prod.fst).Nodup) :
    insertAll cache entries = cache ++ entries.map toSlot := by
  induction entries generalizing cache with
  | nil => simp [insertAll]
  | cons e rest ih =>
      rw [List.length_cons] at hlen
      have hmid :
          (e.1 :: (cache.map Prod.fst ++ rest.map Prod.fst)).Nodup := by
        rw [← List.nodup_middle]
        simpa using hnodup
      have hmemhead : e.1 ∉ cache.map Prod.fst := fun h =>
        (List.nodup_cons.mp hmid).1 (List.mem_append_left _ h)
      have hany : (cache.any fun kv => decide (kv.1 = e.1)) = false := by
        rw [List.any_eq_false]
        intro x hx
        simp only [decide_eq_true_eq]
        intro hpx
        exact hmemhead (hpx ▸ List.mem_map_of_mem Prod.fst hx)
      have hstep : _cache_result cache e.1 e.2.1 e.2.2 =
          cache ++ [toSlot e] := by
        simp only [_cache_result]
        rw [if_neg (by omega : ¬ 100 < cache.length)]
        unfold dictInsert
        rw [if_neg (by simp [hany])]
        rfl
      show insertAll (_cache_result cache e.1 e.2.1 e.2.2) rest = _
      rw [hstep, ih (cache ++ [toSlot e])
        (by rw [List.length_append]; simp; omega)
        (by
          rw [List.map_append, List.append_assoc]
          simpa [toSlot] using hnodup)]
      simp [toSlot]

/-- CPython `min` keeps the current best against candidates that are not
strictly smaller. -/
theorem foldl_min_keep (rest : QueryCache) (b : CacheKey × CacheEntry)
    (h : ∀ kv ∈ rest, ¬ kv.2.timestamp < b.2.timestamp) :
    rest.foldl
      (fun best kv =>
        match best with
        | none => some kv
        | some bb => if kv.2.timestamp < bb.2.timestamp then some kv
            else some bb)
      (some b) = some b := by
  induction rest generalizing b with
  | nil => rfl
  | cons a l ih =>
      show List.foldl _
        (if a.2.timestamp < b.2.timestamp then some a else some b) l =
        some b
      rw [if_neg (h a (List.mem_cons_self a l))]
      exact ih b fun kv hkv => h kv (List.mem_cons_of_mem a hkv)

/-- With strictly increasing timestamps, the eviction candidate is the
first (oldest) entry. -/
theorem _min_by_timestamp_head (b : CacheKey × CacheEntry)
    (rest : QueryCache)
    (h : ∀ kv ∈ rest, ¬ kv.2.timestamp < b.2.timestamp) :
    _min_by_timestamp (b :: rest) = some b := by
  unfold _min_by_timestamp
  exact foldl_min_keep rest b h

/-- C2 (counterexample): the claim "inserting capacity+1 distinct keys
evicts exactly the entry with the earliest insertion timestamp, and a
subsequent read of that key is a miss" is false: the guard is
`len(cache) > 100`, so after 101 inserts into an empty cache nothing has
been evicted (the cache holds all 101 entries) and a fresh read of the
earliest key `k0` still returns its value. -/
theorem C2_counterexample :
    (insertAll [] (c2head :: c2tail.take 100)).length = 101 ∧
    (_get_cached_result (insertAll [] (c2head :: c2tail.take 100))
      c2head.1 100 200).1 = some [docA] := by
  have h := insertAll_no_evict (c2head :: c2tail.take 100) []
    (by decide) (by decide)
  rw [h]
  constructor
  · decide
  · decide

/-- C2 (amended): starting from an empty cache, inserting capacity+2 =
102 distinct keys with increasing insertion timestamps evicts exactly
the single entry with the earliest insertion timestamp (the first key),
and a subsequent read of that key is a miss: the final cache is exactly
the 101 later entries, in order. -/
theorem C2_capacity_eviction
    (e0 : CacheKey × List Document × Int)
    (rest : List (CacheKey × List Document × Int))
    (now ttl : Int)
    (hlen : rest.length = 101)
    (hnodup : ((e0 :: rest).map Prod.fst).Nodup)
    (hmono : ((e0 :: rest).map fun e => e.2.2).Chain' (· < ·)) :
    insertAll [] (e0 :: rest) = rest.map toSlot ∧
    (_get_cached_result (insertAll [] (e0 :: rest)) e0.1 now ttl).1 =
      none := by
  obtain ⟨el, hback⟩ : ∃ a, rest.drop 100 = [a] :=
    List.length_eq_one.mp (by rw [List.length_drop, hlen])
  have hsplit : rest = rest.take 100 ++ [el] := by
    rw [← hback]; exact (List.take_append_drop 100 rest).symm
  have hfrontlen : (rest.take 100).length = 100 := by
    rw [List.length_take, hlen]
    omega
  have hel : el ∈ rest := by rw [hsplit]; simp
  -- key facts from nodup
  rw [List.map_cons, List.nodup_cons] at hnodup
  have he0rest : e0.1 ∉ rest.map Prod.fst := hnodup.1
  have he0front : e0.1 ∉ (rest.take 100).map Prod.fst := fun h =>
    he0rest (((List.take_sublist 100 rest).map Prod.fst).mem h)
  have helfront : el.1 ∉ (rest.take 100).map Prod.fst := by
    have h2 := hnodup.2
    rw [hsplit, List.map_append, List.nodup_append] at h2
    intro hmem
    exact h2.2.2 hmem (by simp)
  -- timestamps: e0's is strictly the smallest
  have hts : ∀ e ∈ rest, e0.2.2 < e.2.2 := by
    rw [List.map_cons, List.chain'_iff_pairwise,
      List.pairwise_cons] at hmono
    intro e he
    exact hmono.1 e.2.2 (List.mem_map_of_mem (fun e => e.2.2) he)
  -- the first 101 inserts append in order
  have hC : insertAll [] (e0 :: rest.take 100) =
      toSlot e0 :: (rest.take 100).map toSlot := by
    rw [insertAll_no_evict (e0 :: rest.take 100) []
      (by simp [hfrontlen])
      (by
        simp only [List.map_nil, List.nil_append, List.map_cons,
          List.nodup_cons]
        exact ⟨he0front,
          hnodup.2.sublist ((List.take_sublist 100 rest).map
            Prod.fst)⟩)]
    simp
  -- the 102nd insert evicts exactly e0's slot
  have hevict :
      _cache_result (toSlot e0 :: (rest.take 100).map toSlot) el.1
        el.2.1 el.2.2 = rest.map toSlot := by
    simp only [_cache_result]
    rw [if_pos (by simp; omega)]
    rw [_min_by_timestamp_head (toSlot e0) ((rest.take 100).map toSlot)
      (by
        intro kv hkv
        rw [List.mem_map] at hkv
        obtain ⟨e, he, rfl⟩ := hkv
        have : e ∈ rest := (List.take_sublist 100 rest).mem he
        exact not_lt_of_gt (hts e this))]
    have hfilter :
        (toSlot e0 :: (rest.take 100).map toSlot).filter
          (fun kv => decide (kv.1 ≠ (toSlot e0).1)) =
          (rest.take 100).map toSlot := by
      rw [List.filter_cons]
      rw [if_neg (by simp [toSlot])]
      apply List.filter_eq_self.mpr
      intro kv hkv
      rw [List.mem_map] at hkv
      obtain ⟨e, he, rfl⟩ := hkv
      simp only [toSlot, ne_eq, decide_eq_true_eq]
      intro hkey
      exact he0front (hkey ▸ List.mem_map_of_mem Prod.fst he)
    show dictInsert
      ((toSlot e0 :: (rest.take 100).map toSlot).filter
        fun kv => decide (kv.1 ≠ (toSlot e0).1))
      el.1 { result := el.2.1, timestamp := el.2.2 } =
      rest.map toSlot
    rw [hfilter]
    unfold dictInsert
    rw [if_neg (by
      simp only [List.any_eq_true, not_exists, not_and, Bool.not_eq_true]
      intro kv hkv
      rw [List.mem_map] at hkv
      obtain ⟨e, he, rfl⟩ := hkv
      simp only [toSlot, decide_eq_false_iff_not]
      intro hkey
      exact helfront (hkey ▸ List.mem_map_of_mem Prod.fst he))]
    rw [show rest.map toSlot = (rest.take 100).map toSlot ++
        [toSlot el] by
      conv_lhs => rw [hsplit]
      rw [List.map_append]
      rfl]
    rfl
  have hmain : insertAll [] (e0 :: rest) = rest.map toSlot := by
    conv_lhs => rw [hsplit]
    show insertAll [] ((e0 :: rest.take 100) ++ [el]) = _
    unfold insertAll
    rw [List.foldl_append]
    show _cache_result (insertAll [] (e0 :: rest.take 100)) el.1
      el.2.1 el.2.2 = _
    rw [hC]
    exact hevict
  refine ⟨hmain, ?_⟩
  rw [hmain]
  rw [_get_cached_result_absent (rest.map toSlot) e0.1 now ttl (by
    rw [List.find?_eq_none]
    intro kv hkv
    rw [List.mem_map] at hkv
    obtain ⟨e, he, rfl⟩ := hkv
    simp only [toSlot, decide_eq_true_eq]
    intro hkey
    exact he0rest (hkey ▸ List.mem_map_of_mem Prod.fst he))]

/-- C2 (witness): the amended theorem applied to the 102 concrete
entries `k0 … k101` with timestamps 0 … 101, read back at time 50 with
TTL 200. -/
theorem C2_capacity_eviction_witness :
    c2tail.length = 101 ∧
    ((c2head :: c2tail).map Prod.fst).Nodup ∧
    ((c2head :: c2tail).map fun e => e.2.2).Chain' (· < ·) ∧
    (insertAll [] (c2head :: c2tail) = c2tail.map toSlot ∧
      (_get_cached_result (insertAll [] (c2head :: c2tail)) c2head.1
        50 200).1 = none) :=
  ⟨by decide, by decide, by rw [List.chain'_iff_pairwise]; decide,
    C2_capacity_eviction c2head c2tail 50 200 (by decide) (by decide)
      (by rw [List.chain'_iff_pairwise]; decide)⟩

/-! ## `app/core/summary.py`: summary creation and the compactor

External collaborators are parameters: the completion backend
(`model.invoke`) and langchain's `trim_messages` may raise, modelled as
`Except String` computations; `count_tokens_approximately` is a pure
token counter; `uuid4` is an id oracle indexed by position. -/

/-- `_DEFAULT_FALLBACK_MESSAGE_COUNT = 15` (summary.py line 58). -/
def _DEFAULT_FALLBACK_MESSAGE_COUNT : Nat := 15

/-- A completion response: `content` is the list of content blocks
(each a dict of string fields), `usage_metadata` the attached usage
record (`getattr(response, "usage_metadata", None)`). -/
structure LLMResponse where
  content : List (List (String × String))
  usage_metadata : Option CustomUsageMetadata

/-- `_trim_messages_for_summary` (summary.py lines 221-236): delegate to
the external `trim_messages`; on any exception fall back to the last 15
messages (`messages[-15:]`). -/
def _trim_messages_for_summary
    (trim : List Msg → Except String (List Msg))
    (messages : List Msg) : List Msg :=
  match trim messages with
  | Except.ok trimmed => trimmed
  | Except.error _ =>
      messages.drop (messages.length - _DEFAULT_FALLBACK_MESSAGE_COUNT)

/-- The `try` block of `_create_summary` (summary.py lines 212-216):
invoke the model on the rendered prompt (the template only embeds the
messages, so `invoke` consumes them directly), then read
`response.content[-1].get("text", "").strip()` and the usage metadata.
Any exception — the model call itself, or the `content[-1]` index error
on an empty content list — escapes to the `except` handler. -/
def _try_create_summary
    (invoke : List Msg → Except String LLMResponse)
    (trimmed : List Msg) :
    Except String (String × Option CustomUsageMetadata) :=
  match invoke trimmed with
  | Except.error e => Except.error e
  | Except.ok response =>
      match response.content.getLast? with
      | none => Except.error "list index out of range"
      | some block =>
          Except.ok
            ((((block.find? fun p => decide (p.1 = "text")).map
              Prod.snd).getD "").trim, response.usage_metadata)

/-- `_create_summary` (summary.py lines 200-218): total — every failure
path yields a synthesized summary string instead of raising. -/
def _create_summary
    (invoke : List Msg → Except String LLMResponse)
    (trim : List Msg → Except String (List Msg))
    (messages_to_summarize : List Msg) :
    String × Option CustomUsageMetadata :=
  if messages_to_summarize.isEmpty then
    ("No previous conversation history.", none)
  else
    let trimmed :=
      _trim_messages_for_summary trim messages_to_summarize
    if trimmed.isEmpty then
      ("Previous conversation was too long to summarize.", none)
    else
      match _try_create_summary invoke trimmed with
      | Except.ok r => r
      | Except.error e => ("Error generating summary: " ++ e, none)

/-- The claim-relevant fields of `HistoryMessageState` (state.py lines
86-94): the running message log and the usage ledger. -/
structure HistoryMessageState where
  messages : List Msg
  token_usage : Option CustomUsageMetadata

/-- `_ensure_message_ids` (summary.py lines 109-113): assign a fresh
uuid (the oracle `uuid`, indexed by position) to every message whose
`id` is `None`. -/
def _ensure_message_ids (uuid : Nat → String) (messages : List Msg) :
    List Msg :=
  messages.enum.map fun p =>
    if p.2.id = none then { p.2 with id := some (uuid p.1) } else p.2

/-- `_partition_messages` (summary.py lines 116-124). -/
def _partition_messages (conversation_messages : List Msg)
    (cutoff_index : Nat) : List Msg × List Msg :=
  (conversation_messages.take cutoff_index,
    conversation_messages.drop cutoff_index)

/-- `_build_new_messages` (summary.py lines 101-106). -/
def _build_new_messages (summary : String) : List Msg :=
  [⟨none, MsgKind.human
    ("Here is a summary of the conversation to date:\n\n" ++ summary)⟩]

/-- `summarize_messages` (summary.py lines 67-98).
`count_tokens_approximately` is the parameter `counter`;
`RemoveMessage(id=REMOVE_ALL_MESSAGES)` followed by the new and
preserved messages instructs the `add_messages` reducer to replace the
whole log, so the installed log is `new_messages ++ preserved`.
Returning `none` is the no-op: the caller keeps its state. -/
def summarize_messages (counter : List Msg → Nat)
    (uuid : Nat → String)
    (invoke : List Msg → Except String LLMResponse)
    (trim : List Msg → Except String (List Msg))
    (messages_to_keep : Nat) (now : Int)
    (state : HistoryMessageState) : Option HistoryMessageState :=
  let messages := _ensure_message_ids uuid state.messages
  let total_tokens := counter messages
  if total_tokens < max_tokens_before_summary then none
  else
    let cutoff_index := _find_safe_cutoff messages messages_to_keep
    if cutoff_index ≤ 0 then none
    else
      let parts := _partition_messages messages cutoff_index
      let summary_usage := _create_summary invoke trim parts.1
      let new_messages := _build_new_messages summary_usage.1
      some { messages := new_messages ++ parts.2,
             token_usage :=
               some (add_usage state.token_usage summary_usage.2 now) }

/-! ### Claims C7 and C8: summarization totality and compactor no-ops -/

/-- C7: `_create_summary` is a total function of its inputs (it is
defined for every backend outcome); on an empty segment it returns the
"no previous history" placeholder, and when the backend call raises it
returns a synthesized summary naming the error — compaction proceeds
instead of aborting the turn. -/
theorem C7_create_summary_total
    (invoke : List Msg → Except String LLMResponse)
    (trim : List Msg → Except String (List Msg))
    (messages_to_summarize : List Msg) (e : String)
    (hne : messages_to_summarize ≠ [])
    (htr : _trim_messages_for_summary trim messages_to_summarize ≠ [])
    (herr : invoke (_trim_messages_for_summary trim
      messages_to_summarize) = Except.error e) :
    (_create_summary invoke trim messages_to_summarize).1 =
      "Error generating summary: " ++ e ∧
    _create_summary invoke trim [] =
      ("No previous conversation history.", none) := by
  refine ⟨?_, rfl⟩
  have h1 : messages_to_summarize.isEmpty = false := by
    cases h : messages_to_summarize with
    | nil => exact absurd h hne
    | cons a l => rfl
  have h2 : (_trim_messages_for_summary trim
      messages_to_summarize).isEmpty = false := by
    cases h : _trim_messages_for_summary trim messages_to_summarize with
    | nil => exact absurd h htr
    | cons a l => rfl
  simp only [_create_summary, h1, h2, Bool.false_eq_true, if_false]
  unfold _try_create_summary
  rw [herr]

/-- The failing completion backend used by concrete scenes. -/
def exInvokeFail : List Msg → Except String LLMResponse :=
  fun _ => Except.error "boom"

/-- A trimmer that keeps the segment as is. -/
def exTrimOk : List Msg → Except String (List Msg) :=
  fun messages => Except.ok messages

/-- C7 (witness): a one-message segment whose summarization call fails
with "boom". -/
theorem C7_create_summary_total_witness :
    (([exHuman] : List Msg) ≠ []) ∧
    (_trim_messages_for_summary exTrimOk [exHuman] ≠ []) ∧
    (exInvokeFail (_trim_messages_for_summary exTrimOk [exHuman]) =
      Except.error "boom") ∧
    ((_create_summary exInvokeFail exTrimOk [exHuman]).1 =
      "Error generating summary: " ++ "boom" ∧
    _create_summary exInvokeFail exTrimOk [] =
      ("No previous conversation history.", none)) :=
  ⟨by decide, by decide, rfl,
    C7_create_summary_total exInvokeFail exTrimOk [exHuman] "boom"
      (by decide) (by decide) rfl⟩

/-- C8: `summarize_messages` performs no compaction — it returns `None`,
so the caller's message log is left in place — whenever the approximate
token count of the (id-stamped) log is below the 3000-token threshold,
or the safe cutoff computed for it is 0. -/
theorem C8_compactor_no_op
    (counter : List Msg → Nat) (uuid : Nat → String)
    (invoke : List Msg → Except String LLMResponse)
    (trim : List Msg → Except String (List Msg))
    (messages_to_keep : Nat) (now : Int)
    (state : HistoryMessageState)
    (h : counter (_ensure_message_ids uuid state.messages) <
        max_tokens_before_summary ∨
      _find_safe_cutoff (_ensure_message_ids uuid state.messages)
        messages_to_keep = 0) :
    summarize_messages counter uuid invoke trim messages_to_keep now
      state = none := by
  simp only [summarize_messages]
  rcases h with h | h
  · rw [if_pos h]
  · by_cases htok :
        counter (_ensure_message_ids uuid state.messages) <
          max_tokens_before_summary
    · rw [if_pos htok]
    · rw [if_neg htok, h, if_pos (Nat.le_refl 0)]

/-- The token counter used by the C8 witness: everything is free. -/
def exCounter : List Msg → Nat := fun _ => 0

/-- The id oracle used by the C8 witness. -/
def exUuid : Nat → String := fun n => "id" ++ toString n

/-- C8 (witness): a two-message state far below the token threshold. -/
theorem C8_compactor_no_op_witness :
    (exCounter (_ensure_message_ids exUuid [exHuman, exHuman]) <
        max_tokens_before_summary ∨
      _find_safe_cutoff (_ensure_message_ids exUuid
        [exHuman, exHuman]) 5 = 0) ∧
    summarize_messages exCounter exUuid exInvokeFail exTrimOk 5 0
      { messages := [exHuman, exHuman], token_usage := none } =
      none :=
  ⟨Or.inl (by decide),
    C8_compactor_no_op exCounter exUuid exInvokeFail exTrimOk 5 0
      { messages := [exHuman, exHuman], token_usage := none }
      (Or.inl (by decide))⟩

end WeAssistant
